import Mathlib

/-!
Shallow embedding of the express-ipfilter middleware (src/ipfilter.js).

The middleware decides, for one request, whether it proceeds or is denied,
given a rule set (exact-address strings, CIDR strings, or range-shaped
tokens), a policy mode string, an ordered forwarded-header list, and
exclusion patterns.

External library collaborators (the `ip`, `range_check` packages and the
host regex engine) are modelled as an explicit parameter record
`ExternalFns`: the middleware only ever calls them as black boxes, so every
theorem below is proved for an arbitrary instantiation of that record.
Lodash combinators (`_.some`, `_.every`, `_.filter`, `_.reduce`, `_.invoke`,
`_.map`) are embedded by the corresponding List operations.  JavaScript
`undefined` is embedded as `Option.none`, and a NaN result of `ip.toLong`
as `Option.none : Option Int` (every comparison with it is false, as in JS).
-/

namespace IpFilter

/-- Record of the external library functions the middleware calls:
`ip.isV6Format`, `ip.isV4Format`, `range_check.validRange`,
`range_check.inRange`, `ip.toLong` (none = NaN), and the host regular
expression engine used for the `excluding` patterns
(`regexTest pattern url` embeds `new RegExp(pattern).test(url)`). -/
structure ExternalFns where
  isV6Format : String → Bool
  isV4Format : String → Bool
  validRange : String → Bool
  inRange : String → String → Bool
  toLong : String → Option Int
  regexTest : String → String → Bool

/-- A configured rule token: in the JS source a token is either a string
(exact address or CIDR block) or an array of strings (range-shaped). -/
inductive Constraint where
  | str (s : String)
  | range (l : List String)
deriving DecidableEq, Repr

/-- Range-shaped tokens are the array-typed ones. -/
def Constraint.isRangeToken : Constraint → Bool
  | .str _ => false
  | .range _ => true

/-- Outcome of one middleware invocation: `next()` with no error
(`proceed`) or `next(IpDeniedError)` carrying the address list (`denied`). -/
inductive Verdict where
  | proceed
  | denied (ips : List String)
deriving DecidableEq, Repr

/-! ## JavaScript string primitives used by the source -/

/-- Embeds `String.prototype.split`: cut the character list at every
leftmost non-overlapping occurrence of `pat`.  `skip` counts characters of
a just-matched occurrence still to be consumed without re-scanning. -/
def splitGoS (pat : List Char) : List Char → Nat → List Char → List (List Char)
  | [], _, cur => [cur.reverse]
  | _ :: rest, skip + 1, cur => splitGoS pat rest skip cur
  | c :: rest, 0, cur =>
    if pat.isPrefixOf (c :: rest) then
      cur.reverse :: splitGoS pat rest (pat.length - 1) []
    else
      splitGoS pat rest 0 (c :: cur)

/-- `jsSplit pat s` embeds the JS expression `s.split(pat)`. -/
def jsSplit (pat s : String) : List String :=
  (splitGoS pat.data s.data 0 []).map (fun l => String.mk l)

/-- `jsContains s pat` embeds the JS truthiness of `~s.indexOf(pat)`:
`pat` occurs somewhere inside `s`. -/
def jsContains (s pat : String) : Bool :=
  decide (pat.data <:+: s.data)

/-- Embeds `String.prototype.toLowerCase` on the ASCII letters the mode
strings use: map the characters, lowering `A`-`Z`. -/
def jsToLower (s : String) : String :=
  String.mk (s.data.map (fun c =>
    if 'A' ≤ c && c ≤ 'Z' then Char.ofNat (c.toNat + 32) else c))

/-- JS `>=` on numbers where `none` stands for NaN (always false). -/
def jsGe : Option Int → Option Int → Bool
  | some a, some b => decide (a ≥ b)
  | _, _ => false

/-- JS `<=` on numbers where `none` stands for NaN (always false). -/
def jsLe : Option Int → Option Int → Bool
  | some a, some b => decide (a ≤ b)
  | _, _ => false

/-- `charAt s i` embeds JS `s[i]` on a string: the one-character string at
index `i`, or (here arbitrarily, only ever used under an index-in-bounds
guard) the empty string for the out-of-bounds `undefined`. -/
def charAt (s : String) (i : Nat) : String :=
  match s.data[i]? with
  | some c => String.singleton c
  | none => ""

/-! ## The request record and address extraction (getClientIp) -/

/-- The request fields the middleware reads.  A missing header is
`none` (JS `undefined`). -/
structure Req where
  headers : String → Option String
  url : String
  remoteAddress : String

/-- The `_.reduce` over `settings.allowedHeaders` in `getClientIp`
(source lines 68-79): starting from `''`, every header whose value is
loosely `!= ''` (a missing header's `undefined` included) overwrites the
accumulator. -/
def headerReduce (req : Req) (allowedHeaders : List String) : Option String :=
  allowedHeaders.foldl
    (fun acc header =>
      let v := req.headers header
      if v ≠ some "" then v else acc)
    (some "")

/-- Per-candidate normalization map of `getClientIp` (source lines 93-103):
strip an embedded-v4-in-v6 marker, then strip a port suffix from a
v4-formatted address.  `none` is the JS `undefined` produced when
`split('::ffff:')[1]` does not exist. -/
def normalizeIp (isV6 isV4 : String → Bool) (ip : String) : Option String :=
  let step1 : Option String :=
    if isV6 ip && jsContains ip "::ffff" then (jsSplit "::ffff:" ip)[1]?
    else some ip
  match step1 with
  | none => none
  | some s =>
      if isV4 s && jsContains s ":" then some ((jsSplit ":" s).headD "")
      else some s

/-- `getClientIp` (source lines 65-106): pick the winning forwarded header
value via `headerReduce`, split it on commas when truthy, fall back to the
transport peer address, and normalize every candidate. -/
def getClientIp (E : ExternalFns) (allowedHeaders : List String) (req : Req) :
    List (Option String) :=
  let headerIp := headerReduce req allowedHeaders
  let ipAddresses : List String :=
    match headerIp with
    | some s => if s = "" then [] else jsSplit "," s
    | none => []
  let ipAddresses := if ipAddresses.isEmpty then [req.remoteAddress] else ipAddresses
  ipAddresses.map (normalizeIp E.isV6Format E.isV4Format)

/-! ## Per-rule evaluation (testIp / testExplicitIp / testCidrBlock / testRange) -/

/-- `testExplicitIp` (source lines 137-143). -/
def testExplicitIp (ip constraint mode : String) : Bool :=
  if ip == constraint then mode == "allow" else mode == "deny"

/-- `testCidrBlock` (source lines 145-151). -/
def testCidrBlock (E : ExternalFns) (ip constraint mode : String) : Bool :=
  if E.inRange ip constraint then mode == "allow" else mode == "deny"

/-- The `_.filter` predicate inside `testRange` (source lines 154-163),
applied to EVERY token of the rule set, array- or string-typed alike
(the JS callback shadows the outer `constraint` and receives each element
of `getIps()`).  On a string token, JS `.length` and indexing see the
characters. -/
def rangeMatch (E : ExternalFns) (ip : String) : Constraint → Bool
  | .range l =>
    if l.length > 1 then
      jsGe (E.toLong ip) (E.toLong (l.getD 0 "")) &&
        jsLe (E.toLong ip) (E.toLong (l.getD 1 ""))
    else
      match l with
      | [a] => ip == a
      | _ => false
  | .str s =>
    if s.length > 1 then
      jsGe (E.toLong ip) (E.toLong (charAt s 0)) &&
        jsLe (E.toLong ip) (E.toLong (charAt s 1))
    else
      match s.data with
      | [a] => ip == String.singleton a
      | _ => false

/-- `testRange` (source lines 153-170): NOTE it ignores the token it was
invoked on and filters the WHOLE rule set fetched again from `getIps()`. -/
def testRange (E : ExternalFns) (rules : List Constraint) (ip mode : String) : Bool :=
  if (rules.filter (rangeMatch E ip)).length > 0 then mode == "allow"
  else mode == "deny"

/-- `testIp` (source lines 120-135): dispatch on the runtime type of the
token; strings are CIDR blocks when `validRange` accepts them, otherwise
exact addresses; arrays go to the collective `testRange`. -/
def testIp (E : ExternalFns) (rules : List Constraint) (c : Constraint)
    (ip mode : String) : Bool :=
  match c with
  | .str s =>
      if E.validRange s then testCidrBlock E ip s mode
      else testExplicitIp ip s mode
  | .range _ => testRange E rules ip mode

/-- `matchClientIp` (source lines 108-118): lowercase the configured mode,
evaluate `testIp` on every token (`_.invoke(getIps(), testIp, ip, mode)`),
then OR the results under `allow` and AND them otherwise. -/
def matchClientIp (E : ExternalFns) (rules : List Constraint)
    (modeRaw ip : String) : Bool :=
  let mode := jsToLower modeRaw
  let result := rules.map (fun c => testIp E rules c ip mode)
  if mode == "allow" then result.any id else result.all id

/-! ## The decision engine (the returned middleware, source lines 177-224) -/

/-- One middleware invocation, with the candidate addresses produced by
`settings.detectIp(req)` passed in as `ips` (the resolver is a
configurable function; its default `getClientIp` is modelled above).
`mode` is the raw configured `settings.mode` string; note the empty-rule
branch compares it to `'allow'` WITHOUT lowercasing, unlike
`matchClientIp`. -/
def ipfilterDecide (E : ExternalFns) (rules : List Constraint) (mode : String)
    (excluding : List String) (url : String) (ips : List String) : Verdict :=
  if (excluding.filter (fun ex => E.regexTest ex url)) ≠ [] then .proceed
  else if rules.isEmpty then
    if mode == "allow" then .denied ["0.0.0.0/0"] else .proceed
  else if (ips.map (fun ip => matchClientIp E rules mode ip)).all id then .proceed
  else .denied ips

/-! ## Instrumented model counting the invocations of the rule source

The rule source (`getIps` in the source) is invoked at three places:
once at the top of the middleware for the emptiness check (line 192),
once per candidate address inside `matchClientIp` (line 111), and once
per range-shaped token inside `testRange` (line 154).  The functions
below mirror the plain model while threading an explicit invocation
counter; the rule source is modelled as a constant provider, which is
how the spec treats a callback (an opaque data source). -/

/-- The rule-source callback: returns the rules and bumps the counter. -/
def getIpsC (rules : List Constraint) (n : Nat) : List Constraint × Nat :=
  (rules, n + 1)

/-- Counter-threading map, embedding the sequential evaluation order of
`_.invoke` / `_.map` over a list. -/
def threadMap {α β : Type} (f : α → Nat → β × Nat) : List α → Nat → List β × Nat
  | [], n => ([], n)
  | a :: rest, n =>
    let p := f a n
    let q := threadMap f rest p.2
    (p.1 :: q.1, q.2)

/-- `testRange`, counting its `getIps()` call. -/
def testRangeC (E : ExternalFns) (rules : List Constraint) (ip mode : String)
    (n : Nat) : Bool × Nat :=
  let p := getIpsC rules n
  (if (p.1.filter (rangeMatch E ip)).length > 0 then mode == "allow"
   else mode == "deny", p.2)

/-- `testIp`, counting the `getIps()` calls of its `testRange` branch. -/
def testIpC (E : ExternalFns) (rules : List Constraint) (c : Constraint)
    (ip mode : String) (n : Nat) : Bool × Nat :=
  match c with
  | .str s =>
      (if E.validRange s then testCidrBlock E ip s mode
       else testExplicitIp ip s mode, n)
  | .range _ => testRangeC E rules ip mode n

/-- `matchClientIp`, counting its own `getIps()` call and those of the
per-token evaluations. -/
def matchClientIpC (E : ExternalFns) (rules : List Constraint)
    (modeRaw ip : String) (n : Nat) : Bool × Nat :=
  let mode := jsToLower modeRaw
  let p := getIpsC rules n
  let q := threadMap (fun c => testIpC E rules c ip mode) p.1 p.2
  (if mode == "allow" then q.1.any id else q.1.all id, q.2)

/-- One middleware invocation, counting every call to the rule source. -/
def ipfilterDecideC (E : ExternalFns) (rules : List Constraint) (mode : String)
    (excluding : List String) (url : String) (ips : List String) (n : Nat) :
    Verdict × Nat :=
  if (excluding.filter (fun ex => E.regexTest ex url)) ≠ [] then (.proceed, n)
  else
    let p := getIpsC rules n
    if p.1.isEmpty then
      (if mode == "allow" then .denied ["0.0.0.0/0"] else .proceed, p.2)
    else
      let q := threadMap (fun ip => matchClientIpC E rules mode ip) ips p.2
      (if q.1.all id then .proceed else .denied ips, q.2)

/-! ## Concrete instantiations used by witnesses and counterexamples -/

/-- A trivial instantiation of the external libraries: no string is
v4/v6-formatted or a valid CIDR range, nothing is in any CIDR range,
`toLong` is NaN everywhere, and no exclusion regex matches. -/
def E0 : ExternalFns :=
  { isV6Format := fun _ => false
    isV4Format := fun _ => false
    validRange := fun _ => false
    inRange := fun _ _ => false
    toLong := fun _ => none
    regexTest := fun _ _ => false }

/-- A decimal-digit parse of one octet (JS `parseInt` on the all-digit
strings the range examples use); `none` is NaN. -/
def parseDec (s : String) : Option Nat :=
  if s.data = [] then none
  else
    s.data.foldl
      (fun acc c =>
        match acc with
        | some n => if c.isDigit then some (n * 10 + (c.toNat - 48)) else none
        | none => none)
      (some 0)

/-- A concrete dotted-quad `ip.toLong`: fold the `.`-separated octets into
the canonical 32-bit integer form (`ipl = ipl*256 + octet`, reduced mod
2^32 like the JS 32-bit shift). -/
def toLongV4 (s : String) : Option Int :=
  (jsSplit "." s).foldl
    (fun acc oct =>
      match acc, parseDec oct with
      | some n, some d => some (((n * 256 + d) : Int) % (2 ^ 32))
      | _, _ => none)
    (some 0)

/-- An instantiation with the concrete dotted-quad `toLong`, used by the
range-token examples. -/
def E1 : ExternalFns :=
  { isV6Format := fun _ => false
    isV4Format := fun _ => false
    validRange := fun _ => false
    inRange := fun _ _ => false
    toLong := toLongV4
    regexTest := fun _ _ => false }

/-- The request used by the forwarded-header counterexample: both headers
are present with distinct non-empty values. -/
def reqTwoHeaders : Req :=
  { headers := fun h =>
      if h == "x-first" then some "1.1.1.1"
      else if h == "x-second" then some "2.2.2.2"
      else none
    url := "/"
    remoteAddress := "9.9.9.9" }

/-! ## Helper lemmas -/

lemma filter_length_pos_iff_any {α : Type} (p : α → Bool) (l : List α) :
    ((l.filter p).length > 0) ↔ l.any p = true := by
  constructor
  · intro h
    obtain ⟨x, hx⟩ := List.exists_mem_of_ne_nil _ (List.length_pos.mp h)
    obtain ⟨hxl, hpx⟩ := List.mem_filter.mp hx
    exact List.any_eq_true.mpr ⟨x, hxl, hpx⟩
  · intro h
    obtain ⟨x, hxl, hpx⟩ := List.any_eq_true.mp h
    exact List.length_pos.mpr (List.ne_nil_of_mem (List.mem_filter.mpr ⟨hxl, hpx⟩))

lemma isEmpty_false_of_ne_nil {α : Type} {l : List α} (h : l ≠ []) :
    l.isEmpty = false := by
  cases l with
  | nil => exact absurd rfl h
  | cons a t => rfl

/-! ## Claims about the decision engine -/

/-- C1: with a non-empty rule set and no exclusion match, the middleware
proceeds iff EVERY candidate address passes its per-address evaluation
(`_.every(matchResults)`), for every mode string; otherwise it denies,
listing every candidate.  The aggregation across candidate addresses is
logical AND regardless of mode. -/
theorem cross_address_aggregation_is_and (E : ExternalFns)
    (rules : List Constraint) (mode : String) (excluding : List String)
    (url : String) (ips : List String) (hr : rules ≠ [])
    (hexc : excluding.filter (fun ex => E.regexTest ex url) = []) :
    (ipfilterDecide E rules mode excluding url ips = Verdict.proceed ↔
      ∀ ip ∈ ips, matchClientIp E rules mode ip = true)
    ∧ (ipfilterDecide E rules mode excluding url ips = Verdict.denied ips ↔
      ¬ ∀ ip ∈ ips, matchClientIp E rules mode ip = true) := by
  have hre : rules.isEmpty = false := isEmpty_false_of_ne_nil hr
  have hd : ipfilterDecide E rules mode excluding url ips
      = (if (ips.map (fun ip => matchClientIp E rules mode ip)).all id
         then Verdict.proceed else Verdict.denied ips) := by
    simp [ipfilterDecide, hexc, hre]
  have hiff : (ips.map (fun ip => matchClientIp E rules mode ip)).all id = true
      ↔ ∀ ip ∈ ips, matchClientIp E rules mode ip = true := by
    simp [List.all_map, List.all_eq_true, Function.comp]
  rw [hd]
  by_cases hall : ∀ ip ∈ ips, matchClientIp E rules mode ip = true
  · rw [hiff.mpr hall]
    simp
    exact hall
  · have hfalse : (ips.map (fun ip => matchClientIp E rules mode ip)).all id = false := by
      cases h2 : (ips.map (fun ip => matchClientIp E rules mode ip)).all id with
      | false => rfl
      | true => exact absurd (hiff.mp h2) hall
    rw [hfalse]
    simp [hall]

/-- C1 witness: mode `allow`, rule set `["127.0.0.1"]`, candidates
`["127.0.0.1", "8.8.8.8"]`: the aggregation theorem applies, and the
verdict is a denial even though the first candidate passes alone. -/
theorem cross_address_aggregation_is_and_witness :
    ((ipfilterDecide E0 [Constraint.str "127.0.0.1"] "allow" [] "/"
        ["127.0.0.1", "8.8.8.8"] = Verdict.proceed ↔
      ∀ ip ∈ (["127.0.0.1", "8.8.8.8"] : List String),
        matchClientIp E0 [Constraint.str "127.0.0.1"] "allow" ip = true)
     ∧ (ipfilterDecide E0 [Constraint.str "127.0.0.1"] "allow" [] "/"
        ["127.0.0.1", "8.8.8.8"] = Verdict.denied ["127.0.0.1", "8.8.8.8"] ↔
      ¬ ∀ ip ∈ (["127.0.0.1", "8.8.8.8"] : List String),
        matchClientIp E0 [Constraint.str "127.0.0.1"] "allow" ip = true))
    ∧ ipfilterDecide E0 [Constraint.str "127.0.0.1"] "allow" [] "/"
        ["127.0.0.1", "8.8.8.8"] = Verdict.denied ["127.0.0.1", "8.8.8.8"] :=
  ⟨cross_address_aggregation_is_and E0 [Constraint.str "127.0.0.1"] "allow" []
      "/" ["127.0.0.1", "8.8.8.8"] (by decide) rfl,
   by decide⟩

/-- C2: the per-address evaluation lowercases the configured mode, and
combines the per-rule booleans with OR across rules when the lowered mode
is `allow` and with AND across rules when it is `deny`. -/
theorem per_address_combinator_mode_dependent (E : ExternalFns)
    (rules : List Constraint) (modeRaw ip : String) (hr : rules ≠ []) :
    (jsToLower modeRaw = "allow" →
      (matchClientIp E rules modeRaw ip = true ↔
        ∃ c ∈ rules, testIp E rules c ip "allow" = true))
    ∧ (jsToLower modeRaw = "deny" →
      (matchClientIp E rules modeRaw ip = true ↔
        ∀ c ∈ rules, testIp E rules c ip "deny" = true)) := by
  constructor <;> intro hm <;>
    simp [matchClientIp, hm, List.any_map, List.all_map, List.any_eq_true,
      List.all_eq_true, Function.comp]

/-- C2 witness: the combinator theorem instantiated at the mixed-case mode
spellings `Allow` and `DENY` with a one-rule set. -/
theorem per_address_combinator_mode_dependent_witness :
    (matchClientIp E0 [Constraint.str "127.0.0.1"] "Allow" "127.0.0.1" = true ↔
      ∃ c ∈ [Constraint.str "127.0.0.1"],
        testIp E0 [Constraint.str "127.0.0.1"] c "127.0.0.1" "allow" = true)
    ∧ (matchClientIp E0 [Constraint.str "127.0.0.1"] "DENY" "127.0.0.1" = true ↔
      ∀ c ∈ [Constraint.str "127.0.0.1"],
        testIp E0 [Constraint.str "127.0.0.1"] c "127.0.0.1" "deny" = true) :=
  ⟨(per_address_combinator_mode_dependent E0 [Constraint.str "127.0.0.1"]
      "Allow" "127.0.0.1" (by decide)).1 (by decide),
   (per_address_combinator_mode_dependent E0 [Constraint.str "127.0.0.1"]
      "DENY" "127.0.0.1" (by decide)).2 (by decide)⟩

/-- C3: for a string token and mode `allow` or `deny`, the per-rule
evaluation returns exactly `(match == (mode == allow))`, where the match
is CIDR membership when `validRange` classifies the token as CIDR
notation and string equality otherwise; likewise for the two underlying
test functions. -/
theorem per_rule_boolean_symmetry (E : ExternalFns) (rules : List Constraint)
    (ip s mode : String) (hm : mode = "allow" ∨ mode = "deny") :
    testIp E rules (Constraint.str s) ip mode
      = ((if E.validRange s then E.inRange ip s else ip == s) == (mode == "allow"))
    ∧ testExplicitIp ip s mode = ((ip == s) == (mode == "allow"))
    ∧ testCidrBlock E ip s mode = ((E.inRange ip s) == (mode == "allow")) := by
  rcases hm with rfl | rfl <;>
    refine ⟨?_, ?_, ?_⟩ <;>
    simp only [testIp, testExplicitIp, testCidrBlock] <;>
    cases hv : E.validRange s <;> cases he : (ip == s) <;>
      cases hi : E.inRange ip s <;>
    simp [testExplicitIp, testCidrBlock, hv, he, hi]

/-- C3 witness: the symmetry theorem instantiated at a non-matching
address under mode `allow` and at a matching one under mode `deny`. -/
theorem per_rule_boolean_symmetry_witness :
    (testIp E0 [] (Constraint.str "127.0.0.1") "10.0.0.1" "allow"
      = ((if E0.validRange "127.0.0.1" then E0.inRange "10.0.0.1" "127.0.0.1"
          else "10.0.0.1" == "127.0.0.1") == (("allow" : String) == "allow"))
     ∧ testExplicitIp "10.0.0.1" "127.0.0.1" "allow"
      = ((("10.0.0.1" : String) == "127.0.0.1") == (("allow" : String) == "allow"))
     ∧ testCidrBlock E0 "10.0.0.1" "127.0.0.1" "allow"
      = ((E0.inRange "10.0.0.1" "127.0.0.1") == (("allow" : String) == "allow")))
    ∧ (testIp E0 [] (Constraint.str "127.0.0.1") "127.0.0.1" "deny"
      = ((if E0.validRange "127.0.0.1" then E0.inRange "127.0.0.1" "127.0.0.1"
          else "127.0.0.1" == "127.0.0.1") == (("deny" : String) == "allow"))
     ∧ testExplicitIp "127.0.0.1" "127.0.0.1" "deny"
      = ((("127.0.0.1" : String) == "127.0.0.1") == (("deny" : String) == "allow"))
     ∧ testCidrBlock E0 "127.0.0.1" "127.0.0.1" "deny"
      = ((E0.inRange "127.0.0.1" "127.0.0.1") == (("deny" : String) == "allow"))) :=
  ⟨per_rule_boolean_symmetry E0 [] "10.0.0.1" "127.0.0.1" "allow" (Or.inl rfl),
   per_rule_boolean_symmetry E0 [] "127.0.0.1" "127.0.0.1" "deny" (Or.inr rfl)⟩

/-- C4: evaluating any range-shaped token of the rule set computes the
collective membership of the candidate over the WHOLE rule set (the
result does not depend on which range token triggered it), and returns
`(member == (mode == allow))`; a token with two or more elements matches
iff the candidate's integer form lies inclusively between the integer
forms of its first two elements, and a one-element token matches iff the
candidate equals its sole element. -/
theorem range_tokens_evaluated_collectively (E : ExternalFns)
    (rules : List Constraint) (ip mode : String) (l : List String)
    (hc : Constraint.range l ∈ rules) (hm : mode = "allow" ∨ mode = "deny") :
    testIp E rules (Constraint.range l) ip mode
      = (rules.any (rangeMatch E ip) == (mode == "allow"))
    ∧ (∀ a b rest, rangeMatch E ip (Constraint.range (a :: b :: rest))
        = (jsGe (E.toLong ip) (E.toLong a) && jsLe (E.toLong ip) (E.toLong b)))
    ∧ (∀ a, rangeMatch E ip (Constraint.range [a]) = (ip == a)) := by
  refine ⟨?_, ?_, ?_⟩
  · show testRange E rules ip mode = _
    rw [testRange]
    cases hany : rules.any (rangeMatch E ip) with
    | false =>
      have hlen : ¬ (rules.filter (rangeMatch E ip)).length > 0 := by
        rw [filter_length_pos_iff_any, hany]
        simp
      rw [if_neg hlen]
      rcases hm with rfl | rfl <;> rfl
    | true =>
      have hlen : (rules.filter (rangeMatch E ip)).length > 0 :=
        (filter_length_pos_iff_any _ _).mpr hany
      rw [if_pos hlen]
      rcases hm with rfl | rfl <;> rfl
  · intro a b rest
    simp [rangeMatch]
  · intro a
    simp [rangeMatch]

/-- C4 witness: the collective-range theorem instantiated at the spec's
range example, rule set `[["10.0.0.1", "10.0.0.10"]]` with the concrete
dotted-quad integer form and candidate `10.0.0.5` under mode `allow`. -/
theorem range_tokens_evaluated_collectively_witness :
    (testIp E1 [Constraint.range ["10.0.0.1", "10.0.0.10"]]
        (Constraint.range ["10.0.0.1", "10.0.0.10"]) "10.0.0.5" "allow"
      = ([Constraint.range ["10.0.0.1", "10.0.0.10"]].any
          (rangeMatch E1 "10.0.0.5") == (("allow" : String) == "allow"))
     ∧ (∀ a b rest,
        rangeMatch E1 "10.0.0.5" (Constraint.range (a :: b :: rest))
          = (jsGe (E1.toLong "10.0.0.5") (E1.toLong a) &&
             jsLe (E1.toLong "10.0.0.5") (E1.toLong b)))
     ∧ (∀ a, rangeMatch E1 "10.0.0.5" (Constraint.range [a])
          = ("10.0.0.5" == a)))
    ∧ testIp E1 [Constraint.range ["10.0.0.1", "10.0.0.10"]]
        (Constraint.range ["10.0.0.1", "10.0.0.10"]) "10.0.0.5" "allow" = true :=
  ⟨range_tokens_evaluated_collectively E1
      [Constraint.range ["10.0.0.1", "10.0.0.10"]] "10.0.0.5" "allow"
      ["10.0.0.1", "10.0.0.10"] (by decide) (Or.inl rfl),
   by decide⟩

/-- C7: with no exclusion match and an empty rule set, the verdict is a
denial carrying exactly the sentinel list `["0.0.0.0/0"]` under mode
`allow`, and proceed under mode `deny`, for every candidate list. -/
theorem empty_rule_set_policy (E : ExternalFns) (mode : String)
    (excluding : List String) (url : String) (ips : List String)
    (hexc : excluding.filter (fun ex => E.regexTest ex url) = []) :
    (mode = "allow" →
      ipfilterDecide E [] mode excluding url ips = Verdict.denied ["0.0.0.0/0"])
    ∧ (mode = "deny" →
      ipfilterDecide E [] mode excluding url ips = Verdict.proceed) := by
  constructor <;> rintro rfl <;> simp [ipfilterDecide, hexc]

/-- C7 witness: the empty-rule-set theorem instantiated at both modes
with a concrete candidate list. -/
theorem empty_rule_set_policy_witness :
    ipfilterDecide E0 [] "allow" [] "/" ["1.2.3.4"] = Verdict.denied ["0.0.0.0/0"]
    ∧ ipfilterDecide E0 [] "deny" [] "/" ["1.2.3.4"] = Verdict.proceed :=
  ⟨(empty_rule_set_policy E0 "allow" [] "/" ["1.2.3.4"] rfl).1 rfl,
   (empty_rule_set_policy E0 "deny" [] "/" ["1.2.3.4"] rfl).2 rfl⟩

/-- C10: with a non-empty rule set, no exclusion match and an empty
candidate list, the verdict is proceed for every mode and rule set (the
AND over zero per-address results is vacuously true). -/
theorem empty_candidates_proceed (E : ExternalFns) (rules : List Constraint)
    (mode : String) (excluding : List String) (url : String)
    (hr : rules ≠ [])
    (hexc : excluding.filter (fun ex => E.regexTest ex url) = []) :
    ipfilterDecide E rules mode excluding url [] = Verdict.proceed := by
  have hre : rules.isEmpty = false := isEmpty_false_of_ne_nil hr
  simp [ipfilterDecide, hexc, hre]

/-- C10 witness: the empty-candidate theorem instantiated with mode
`allow` and a rule set that would deny any evaluated address. -/
theorem empty_candidates_proceed_witness :
    ipfilterDecide E0 [Constraint.str "127.0.0.1"] "allow" [] "/" []
      = Verdict.proceed :=
  empty_candidates_proceed E0 [Constraint.str "127.0.0.1"] "allow" [] "/"
    (by decide) rfl

/-! ## C5: forwarded-header precedence.

The claim says the FIRST header with a non-empty value wins.  The source
fold (lines 68-79) overwrites the accumulator at every header whose value
is loosely `!= ''`, so the LAST such header wins instead (and a missing
later header even overwrites a found value with `undefined`). -/

lemma headerReduce_skip (req : Req) :
    ∀ (l : List String) (acc : Option String),
      (∀ x ∈ l, req.headers x = some "") →
      l.foldl
        (fun acc header =>
          let v := req.headers header
          if v ≠ some "" then v else acc) acc = acc := by
  intro l
  induction l with
  | nil => intro acc h; rfl
  | cons a t ih =>
    intro acc h
    have ha : req.headers a = some "" := h a (List.mem_cons_self a t)
    simp only [List.foldl_cons, ha, ne_eq, not_true_eq_false, if_false,
      not_true, ite_self]
    exact ih acc (fun x hx => h x (List.mem_cons_of_mem a hx))

/-- C5 counterexample: with both configured headers present and
non-empty, the extraction yields the SECOND header's value, not the
first's as the claim states. -/
theorem forwarded_header_precedence_counterexample :
    getClientIp E0 ["x-first", "x-second"] reqTwoHeaders = [some "2.2.2.2"]
    ∧ getClientIp E0 ["x-first", "x-second"] reqTwoHeaders ≠ [some "1.1.1.1"]
    ∧ headerReduce reqTwoHeaders ["x-first", "x-second"] = some "2.2.2.2" := by
  decide

/-- C5 amended: the winning header value is the LAST header in the
configured list whose value differs from the empty string (a missing
header counts as differing, overwriting the accumulator with the JS
`undefined`): whenever every header after `h` has the empty-string value,
the reduction returns the value of `h`. -/
theorem forwarded_header_precedence_amended (req : Req)
    (hs1 hs2 : List String) (h : String)
    (hv : req.headers h ≠ some "")
    (hafter : ∀ x ∈ hs2, req.headers x = some "") :
    headerReduce req (hs1 ++ h :: hs2) = req.headers h := by
  rw [headerReduce, List.foldl_append, List.foldl_cons]
  have hv2 : (req.headers h ≠ some "") = True := eq_true hv
  simp only [hv2, if_true]
  exact headerReduce_skip req hs2 (req.headers h) hafter

/-- C5 amended witness: the last-wins theorem instantiated on the
two-header request. -/
theorem forwarded_header_precedence_amended_witness :
    headerReduce reqTwoHeaders ["x-first", "x-second"] = some "2.2.2.2" :=
  (forwarded_header_precedence_amended reqTwoHeaders ["x-first"] []
      "x-second" (by decide) (by simp)).trans (by decide)

/-! ## C6: per-candidate normalization -/

lemma splitGoS_colon_first :
    ∀ (pre post acc : List Char), (∀ c ∈ pre, c ≠ ':') →
      splitGoS [':'] (pre ++ ':' :: post) 0 acc
        = (acc.reverse ++ pre) :: splitGoS [':'] post 0 [] := by
  intro pre
  induction pre with
  | nil =>
    intro post acc h
    simp [splitGoS, List.isPrefixOf]
  | cons c pre ih =>
    intro post acc h
    have hc : (':' == c) = false :=
      beq_eq_false_iff_ne.mpr (Ne.symm (h c (List.mem_cons_self c pre)))
    have hrec := ih post (c :: acc) (fun x hx => h x (List.mem_cons_of_mem c hx))
    simp only [List.cons_append, splitGoS, List.isPrefixOf, hc, Bool.false_and,
      if_false, Bool.false_eq_true, List.append_eq]
    rw [hrec]
    simp

/-- C6: each candidate is normalized independently (order preserved);
an IPv6-formatted candidate containing the `::ffff:` marker becomes the
piece after the marker (when that piece has no further `:`), and an
IPv4-formatted candidate containing a `:` keeps only the portion before
the first `:`; in particular `::ffff:127.0.0.1` and `127.0.0.1:54321`
both normalize to `127.0.0.1` whenever the external format predicates
classify them as the claim presumes. -/
theorem candidate_normalization (v6 v4 : String → Bool) :
    (∀ s t, v6 s = true → jsContains s "::ffff" = true →
        (jsSplit "::ffff:" s)[1]? = some t → jsContains t ":" = false →
        normalizeIp v6 v4 s = some t)
    ∧ (∀ (s : String) (pre post : List Char),
        (v6 s && jsContains s "::ffff") = false → v4 s = true →
        s.data = pre ++ ':' :: post → (∀ c ∈ pre, c ≠ ':') →
        normalizeIp v6 v4 s = some (String.mk pre))
    ∧ (v6 "::ffff:127.0.0.1" = true →
        normalizeIp v6 v4 "::ffff:127.0.0.1" = some "127.0.0.1")
    ∧ (v4 "127.0.0.1:54321" = true →
        normalizeIp v6 v4 "127.0.0.1:54321" = some "127.0.0.1")
    ∧ (∀ (l : List String) (i : Nat),
        (l.map (normalizeIp v6 v4))[i]? = (l[i]?).map (normalizeIp v6 v4)) := by
  have hA : ∀ s t, v6 s = true → jsContains s "::ffff" = true →
      (jsSplit "::ffff:" s)[1]? = some t → jsContains t ":" = false →
      normalizeIp v6 v4 s = some t := by
    intro s t h1 h2 h3 h4
    simp [normalizeIp, h1, h2, h3, h4]
  have hB : ∀ (s : String) (pre post : List Char),
      (v6 s && jsContains s "::ffff") = false → v4 s = true →
      s.data = pre ++ ':' :: post → (∀ c ∈ pre, c ≠ ':') →
      normalizeIp v6 v4 s = some (String.mk pre) := by
    intro s pre post h1 h2 hdata hpre
    have hpat : (":" : String).data = [':'] := rfl
    have hinf : (":" : String).data <:+: s.data := by
      rw [hpat, hdata]
      exact ⟨pre, post, by simp⟩
    have hcont : jsContains s ":" = true := by
      simp only [jsContains, decide_eq_true_eq]
      exact hinf
    have hsplit : jsSplit ":" s
        = String.mk pre :: (splitGoS [':'] post 0 []).map (fun l => String.mk l) := by
      simp only [jsSplit, hpat, hdata, splitGoS_colon_first pre post [] hpre]
      simp
    simp [normalizeIp, h1, h2, hcont, hsplit]
  refine ⟨hA, hB, ?_, ?_, ?_⟩
  · intro h
    exact hA "::ffff:127.0.0.1" "127.0.0.1" h (by decide) (by decide) (by decide)
  · intro h
    have h1 : (v6 "127.0.0.1:54321" && jsContains "127.0.0.1:54321" "::ffff") = false := by
      have : jsContains "127.0.0.1:54321" "::ffff" = false := by decide
      rw [this]
      exact Bool.and_false _
    exact hB "127.0.0.1:54321" ['1', '2', '7', '.', '0', '.', '0', '.', '1']
      ['5', '4', '3', '2', '1'] h1 h (by decide) (by decide)
  · intro l i
    simp

/-- C6 witness: the normalization theorem instantiated with format
predicates that accept the two example addresses. -/
theorem candidate_normalization_witness :
    normalizeIp (fun _ => true) (fun _ => true) "::ffff:127.0.0.1"
      = some "127.0.0.1"
    ∧ normalizeIp (fun _ => true) (fun _ => true) "127.0.0.1:54321"
      = some "127.0.0.1" :=
  ⟨(candidate_normalization (fun _ => true) (fun _ => true)).2.2.1 rfl,
   (candidate_normalization (fun _ => true) (fun _ => true)).2.2.2.1 rfl⟩

/-! ## C8: mode case sensitivity.

The claim says the configured mode is case-insensitive including in the
empty-rule-set branch; but the empty-rule-set branch (source line 194)
compares the RAW `settings.mode` to `'allow'`, so only the exact
lowercase spelling denies there, while `matchClientIp` lowercases. -/

/-- C8 counterexample: with an empty rule set, the spelling `ALLOW`
proceeds while `allow` denies with the sentinel, so the verdict is NOT
invariant under letter case in the empty-rule-set branch. -/
theorem mode_case_insensitive_counterexample :
    ipfilterDecide E0 [] "ALLOW" [] "/" ["1.2.3.4"] = Verdict.proceed
    ∧ ipfilterDecide E0 [] "allow" [] "/" ["1.2.3.4"]
        = Verdict.denied ["0.0.0.0/0"]
    ∧ ipfilterDecide E0 [] "ALLOW" [] "/" ["1.2.3.4"]
        ≠ ipfilterDecide E0 [] "allow" [] "/" ["1.2.3.4"] := by
  decide

/-- C8 amended: whenever the rule set is NON-empty, the verdict only
depends on the lowercased mode, so any two spellings with the same
lowercase form yield the same verdict; in the empty-rule-set branch the
comparison is case-sensitive (see the counterexample). -/
theorem mode_case_insensitive_amended (E : ExternalFns)
    (rules : List Constraint) (m1 m2 : String) (excluding : List String)
    (url : String) (ips : List String) (hr : rules ≠ [])
    (hm : jsToLower m1 = jsToLower m2) :
    ipfilterDecide E rules m1 excluding url ips
      = ipfilterDecide E rules m2 excluding url ips := by
  have hre : rules.isEmpty = false := isEmpty_false_of_ne_nil hr
  by_cases hexc : excluding.filter (fun ex => E.regexTest ex url) = []
  · simp [ipfilterDecide, hexc, hre, matchClientIp, hm]
  · simp [ipfilterDecide, hexc]

/-- C8 amended witness: `ALLOW` and `allow` agree on a non-empty rule
set. -/
theorem mode_case_insensitive_amended_witness :
    ipfilterDecide E0 [Constraint.str "127.0.0.1"] "ALLOW" [] "/" ["127.0.0.1"]
      = ipfilterDecide E0 [Constraint.str "127.0.0.1"] "allow" [] "/" ["127.0.0.1"] :=
  mode_case_insensitive_amended E0 [Constraint.str "127.0.0.1"] "ALLOW" "allow"
    [] "/" ["127.0.0.1"] (by decide) (by decide)

/-! ## C9: number of rule-source invocations per decision.

The claim says a callback rule source is invoked exactly once per
decision; the source invokes it once for the emptiness check (line 192),
once more per candidate in `matchClientIp` (line 111), and once more per
range-shaped token per candidate in `testRange` (line 154). -/

lemma testIpC_counter (E : ExternalFns) (rules : List Constraint)
    (c : Constraint) (ip mode : String) (n : Nat) :
    (testIpC E rules c ip mode n).2
      = n + (if c.isRangeToken then 1 else 0) := by
  cases c <;> rfl

lemma threadMap_counter {α : Type} (f : α → Nat → Bool × Nat) (k : α → Nat)
    (hf : ∀ a n, (f a n).2 = n + k a) :
    ∀ (l : List α) (n : Nat), (threadMap f l n).2 = n + (l.map k).sum := by
  intro l
  induction l with
  | nil => intro n; simp [threadMap]
  | cons a t ih =>
    intro n
    simp only [threadMap, List.map_cons, List.sum_cons]
    rw [ih, hf]
    omega

lemma sum_range_indicator (l : List Constraint) :
    (l.map (fun c => if c.isRangeToken then 1 else 0)).sum
      = (l.filter Constraint.isRangeToken).length := by
  induction l with
  | nil => rfl
  | cons c t ih =>
    cases hc : c.isRangeToken with
    | false => simp [List.filter_cons, hc, ih]
    | true =>
      simp [List.filter_cons, hc, ih]
      omega

lemma matchClientIpC_counter (E : ExternalFns) (rules : List Constraint)
    (modeRaw ip : String) (n : Nat) :
    (matchClientIpC E rules modeRaw ip n).2
      = n + 1 + (rules.filter Constraint.isRangeToken).length := by
  have hthread := threadMap_counter
    (fun c => testIpC E rules c ip (jsToLower modeRaw))
    (fun c => if c.isRangeToken then 1 else 0)
    (fun a m => testIpC_counter E rules a ip (jsToLower modeRaw) m)
    rules (n + 1)
  simp only [matchClientIpC, getIpsC]
  rw [hthread, sum_range_indicator]

lemma sum_const_map {α : Type} (l : List α) (c : Nat) :
    (l.map (fun _ => c)).sum = l.length * c := by
  induction l with
  | nil => simp
  | cons a t ih =>
    simp only [List.map_cons, List.sum_cons, List.length_cons, ih,
      Nat.succ_mul]
    omega

/-- C9 counterexample: one candidate and one exact-address rule already
make TWO invocations of the rule source in a single decision
(the emptiness check plus the per-candidate fetch of `matchClientIp`),
contradicting the claimed exactly-once contract. -/
theorem rule_source_invocation_count_counterexample :
    (ipfilterDecideC E0 [Constraint.str "127.0.0.1"] "deny" [] "/"
        ["1.2.3.4"] 0).2 = 2
    ∧ (ipfilterDecideC E0 [Constraint.str "127.0.0.1"] "deny" [] "/"
        ["1.2.3.4"] 0).2 ≠ 1 := by
  decide

/-- C9 amended: on a non-excluded path a constant-callback rule source is
invoked once for the emptiness check, plus, when the rule set is
non-empty, once per candidate address plus once per range-shaped token
per candidate: `1 + |candidates| * (1 + |range tokens|)` in total
(and just the one emptiness check when the rule set is empty). -/
theorem rule_source_invocation_count_amended (E : ExternalFns)
    (rules : List Constraint) (mode : String) (excluding : List String)
    (url : String) (ips : List String) (n : Nat)
    (hexc : excluding.filter (fun ex => E.regexTest ex url) = []) :
    (ipfilterDecideC E rules mode excluding url ips n).2
      = n + 1 + (if rules.isEmpty then 0
          else ips.length * (1 + (rules.filter Constraint.isRangeToken).length)) := by
  rw [ipfilterDecideC]
  simp only [hexc, ne_eq, not_true_eq_false, if_false, getIpsC]
  cases hre : rules.isEmpty with
  | true => simp [hre]
  | false =>
    have hthread := threadMap_counter
      (fun ip => matchClientIpC E rules mode ip)
      (fun _ => 1 + (rules.filter Constraint.isRangeToken).length)
      (fun a m => by simp only [matchClientIpC_counter]; omega)
      ips (n + 1)
    simp only [hre, if_false, Bool.false_eq_true]
    rw [hthread, sum_const_map]

/-- C9 amended witness: one candidate against a one-range-token rule set
makes three invocations. -/
theorem rule_source_invocation_count_amended_witness :
    (ipfilterDecideC E1 [Constraint.range ["10.0.0.1", "10.0.0.10"]]
        "allow" [] "/" ["10.0.0.5"] 0).2 = 3 := by
  rw [rule_source_invocation_count_amended E1
    [Constraint.range ["10.0.0.1", "10.0.0.10"]] "allow" [] "/"
    ["10.0.0.5"] 0 rfl]
  decide

end IpFilter
